import Mathlib

/-!
Verification development for the Bloo repository's caching-and-throttling
layer and its consumers.

The Python sources under `src/` are embedded shallowly:
* Python strings become `List Char` (`Str`), with ASCII `str.lower`,
  `str.startswith` and the lexicographic-by-code-point ordering used by
  `list.sort` modelled as structural recursions.
* `aiohttp` responses become a `Response` record carrying the HTTP status
  and the already-parsed payload.
* Python exceptions become `Except PyErr`.
* The `aiocache.cached` decorator and `discord.ext.commands` cooldown
  machinery are third-party code not present under `src/`; the entries
  marked `Modelled from the spec:` embed the behaviour the specification
  ascribes to them (TTLCache §4.1, single-flight §5, CooldownRegistry §4.2).
-/

namespace Bloo

/-! ## Python strings as lists of characters -/

/-- A Python string, modelled as its list of characters. -/
abbrev Str := List Char

/-- ASCII `str.lower` on a single character. -/
def lowerChar (c : Char) : Char :=
  if 65 ≤ c.toNat ∧ c.toNat ≤ 90 then Char.ofNat (c.toNat + 32) else c

/-- Python `s.lower()` (ASCII fragment). -/
def pyLower (s : Str) : Str := s.map lowerChar

/-- Python `s.startswith(p)`. -/
def pyStartsWith (s p : Str) : Bool := p.isPrefixOf s

/-- Python's `<=` on strings: lexicographic by character code point. -/
def strLe : Str → Str → Bool
  | [], _ => true
  | _ :: _, [] => false
  | a :: s, b :: t =>
    if a < b then true
    else if b < a then false
    else strLe s t

/-- `strLe` as a proposition, for use with Mathlib's sorting lemmas. -/
def strLeP (a b : Str) : Prop := strLe a b = true

instance : DecidableRel strLeP := fun a b => by
  unfold strLeP; infer_instance

instance : IsTotal Str strLeP := ⟨by
  intro a b
  show strLe a b = true ∨ strLe b a = true
  induction a generalizing b with
  | nil => left; rfl
  | cons x s ih =>
    cases b with
    | nil => right; rfl
    | cons y t =>
      rcases lt_trichotomy x y with h | h | h
      · left; simp [strLe, h]
      · subst h
        rcases ih t with h' | h'
        · left; simp [strLe, h']
        · right; simp [strLe, h']
      · right; simp [strLe, h]⟩

instance : IsTrans Str strLeP := ⟨by
  intro a b c hab hbc
  show strLe a c = true
  replace hab : strLe a b = true := hab
  replace hbc : strLe b c = true := hbc
  induction a generalizing b c with
  | nil => rfl
  | cons x s ih =>
    cases b with
    | nil => simp [strLe] at hab
    | cons y t =>
      cases c with
      | nil => simp [strLe] at hbc
      | cons z u =>
        rcases lt_trichotomy x y with h₁ | h₁ | h₁
        · rcases lt_trichotomy y z with h₂ | h₂ | h₂
          · simp [strLe, lt_trans h₁ h₂]
          · subst h₂; simp [strLe, h₁]
          · simp [strLe, h₂, not_lt_of_lt h₂] at hbc
        · subst h₁
          rcases lt_trichotomy x z with h₂ | h₂ | h₂
          · simp [strLe, h₂]
          · subst h₂
            simp only [strLe, lt_irrefl, if_false] at hab hbc ⊢
            exact ih t u hab hbc
          · simp [strLe, h₂, not_lt_of_lt h₂] at hbc
        · simp [strLe, h₁, not_lt_of_lt h₁] at hab⟩

instance : IsAntisymm Str strLeP := ⟨by
  intro a b hab hba
  replace hab : strLe a b = true := hab
  replace hba : strLe b a = true := hba
  induction a generalizing b with
  | nil =>
    cases b with
    | nil => rfl
    | cons y t => simp [strLe] at hba
  | cons x s ih =>
    cases b with
    | nil => simp [strLe] at hab
    | cons y t =>
      rcases lt_trichotomy x y with h | h | h
      · simp [strLe, h, not_lt_of_lt h] at hba
      · subst h
        simp only [strLe, lt_irrefl, if_false] at hab hba
        simp [ih t hab hba]
      · simp [strLe, h, not_lt_of_lt h] at hab⟩

/-- Python `list.sort()` on a list of strings.  Timsort is modelled by
insertion sort: since two strings that compare equal under `strLe` are
identical (antisymmetry), every sorting algorithm produces the same sorted
output here, so stability is irrelevant. -/
def pySort (l : List Str) : List Str := l.insertionSort strLeP

/-! ## HTTP responses, Python errors, and the ios.cfw.guide data model -/

/-- An `aiohttp` response: the HTTP status code and the already-parsed body
as the call site would read it. -/
structure Response (α : Type) where
  status : ℕ
  body : α
deriving DecidableEq

/-- The Python exceptions the embedded code can raise. -/
inductive PyErr where
  | unboundLocalError
  | typeError
  | indexError
deriving DecidableEq

/-- One element of the `"ios"` list of `main.json`: the fields the code
reads (`v['version']`, `v['build']`). -/
structure IOSVersion where
  version : Str
  build : Str
deriving DecidableEq

/-- One element of the `"jailbreak"` list of `main.json`: the field the code
reads (`app["name"]`).  In Python each element is a dict. -/
structure JBEntry where
  name : Str
deriving DecidableEq

/-- The parsed `main.json` payload: the two collections the code reads via
`.get("ios")` and `.get("jailbreak")`. -/
structure CFWData where
  ios : List IOSVersion
  jailbreak : List JBEntry
deriving DecidableEq

/-! ## Producers (from src) -/

/-- Embeds `get_ios_cfw` (src/utils/autocompleters.py lines 66-81), the body
of the cached producer.  The local `data` is assigned only inside the
`resp.status == 200` branch, so the final `return data` raises
`UnboundLocalError` for every other status.  The payload type is
`Option CFWData` because `resp.json()` parses a JSON `null` body to Python
`None`. -/
def get_ios_cfw (resp : Response (Option CFWData)) : Except PyErr (Option CFWData) :=
  let data : Option (Option CFWData) :=
    if resp.status = 200 then some resp.body else none
  match data with
  | some d => Except.ok d
  | none => Except.error PyErr.unboundLocalError

/-- Embeds `get_signed_status` (src/cogs/commands/misc/ioscfw.py lines
36-45), the body of the cached producer: `signed` starts as the empty list
and is replaced by the parsed body only on HTTP 200; every other status
returns the initial empty default — no exception is raised. -/
def get_signed_status (resp : Response (List α)) : List α :=
  if resp.status = 200 then resp.body else []

/-! ## Autocomplete consumers (from src) -/

/-- Embeds `jb_autocomplete` (src/utils/autocompleters.py lines 84-91).  A
raised `get_ios_cfw` propagates; a `None` payload returns `[]`; otherwise
`apps.sort()` sorts the raw `"jailbreak"` entries, which are Python dicts —
CPython raises `TypeError` on the first `dict < dict` comparison, which
happens exactly when the list has at least two entries. -/
def jb_autocomplete (cfwResp : Response (Option CFWData)) (value : Str) :
    Except PyErr (List Str) :=
  match get_ios_cfw cfwResp with
  | Except.error e => Except.error e
  | Except.ok none => Except.ok []
  | Except.ok (some apps) =>
    let jbs := apps.jailbreak
    if 2 ≤ jbs.length then Except.error PyErr.typeError
    else Except.ok
      (((jbs.filter
          (fun a => pyStartsWith (pyLower a.name) (pyLower value))).map
        JBEntry.name).take 25)

/-- Embeds the body of `ios_autocomplete` (src/utils/autocompleters.py lines
94-101) acting on the cached `main.json` object.  `versions.reverse()` is an
in-place reversal of the cached dict's `"ios"` list, so the call returns both
the response list and the cached object as the call leaves it. -/
def ios_autocompleteOnCache (cfw : CFWData) (value : Str) :
    List Str × CFWData :=
  let versions := cfw.ios.reverse
  (((versions.filter
      (fun v => pyStartsWith (pyLower v.version) (pyLower value))).map
      (fun v => v.version ++ [' ', '('] ++ v.build ++ [')'])).take 25,
   { cfw with ios := versions })

/-- Embeds `ios_autocomplete` (src/utils/autocompleters.py lines 94-101)
from a fresh fetch: a raised `get_ios_cfw` propagates; a `None` payload
returns `[]`; otherwise the body runs on the payload. -/
def ios_autocomplete (cfwResp : Response (Option CFWData)) (value : Str) :
    Except PyErr (List Str) :=
  match get_ios_cfw cfwResp with
  | Except.error e => Except.error e
  | Except.ok none => Except.ok []
  | Except.ok (some versions) =>
    Except.ok (ios_autocompleteOnCache versions value).1

/-- Embeds `memes_autocomplete` (src/utils/autocompleters.py lines 124-127):
lowercase the stored meme names, sort, keep those whose lowercased form
starts with the lowercased input, truncate to 25. -/
def memes_autocomplete (memeNames : List Str) (value : Str) : List Str :=
  ((pySort (memeNames.map pyLower)).filter
    (fun m => pyStartsWith (pyLower m) (pyLower value))).take 25

/-- Python `s.split()` followed by the `[0]` index: the string is split at
spaces, empty tokens are discarded (Python's no-argument `split` keeps no
empty fields), and `none` models the `IndexError` Python raises when the
string has no words at all (it is empty or whitespace-only). -/
def firstWord (s : Str) : Option Str :=
  ((s.splitOnP (fun c => c = ' ')).filter (fun w => !w.isEmpty)).head?

/-- The device families `device_autocomplete` accepts. -/
def deviceFamilies : List Str :=
  ["iphone".data, "ipod".data, "ipad".data, "homepod".data, "apple".data]

/-- The family test `device.lower().split()[0] in [...]` as a pure
predicate, for stating the device contract on inputs where the index cannot
raise (a candidate with no words belongs to no family). -/
def deviceFamilyOk (d : Str) : Bool :=
  match firstWord (pyLower d) with
  | some w => deviceFamilies.contains w
  | none => false

/-- Embeds the list comprehension of `device_autocomplete`
(src/utils/autocompleters.py line 41): walk the candidates in order;
`device.lower().startswith(...)` is evaluated first and `and`
short-circuits, so for a candidate that fails the prefix test nothing else
runs; for a candidate that passes it, `device.lower().split()[0]` is
evaluated and raises `IndexError` when the candidate has no words; a raise
anywhere aborts the whole comprehension. -/
def deviceComprehension (value : Str) : List Str → Except PyErr (List Str)
  | [] => Except.ok []
  | d :: ds =>
    if pyStartsWith (pyLower d) (pyLower value) then
      match firstWord (pyLower d) with
      | none => Except.error PyErr.indexError
      | some w =>
        match deviceComprehension value ds with
        | Except.error e => Except.error e
        | Except.ok rest =>
          Except.ok (if deviceFamilies.contains w then d :: rest else rest)
    else deviceComprehension value ds

/-- Embeds `device_autocomplete` (src/utils/autocompleters.py lines 38-41):
sort the cached device names, run the comprehension — lowercased-prefix
test, then the device-family test on the first word, which raises
`IndexError` on a whitespace-only candidate — and truncate the result to
25. -/
def device_autocomplete (devices : List Str) (value : Str) :
    Except PyErr (List Str) :=
  (deviceComprehension value (pySort devices)).map (fun l => l.take 25)

/-- Follows the spec's words for the autocomplete contract (§4.3 / C6):
exactly the candidates whose lowercased form starts with the lowercased
input, in alphabetical order, truncated to at most 25 results. -/
def specAutocompleteContract (candidates : List Str) (value : Str) : List Str :=
  (pySort (candidates.filter
    (fun c => pyStartsWith (pyLower c) (pyLower value)))).take 25

/-! ## TTL cache (spec-modelled)

The `aiocache.cached` decorator that wraps the producers is third-party code
not present under `src/`; the definitions below are modelled from the spec
(§3, §4.1). -/

/-- Modelled from the spec: a TTLCache entry (§3) — value plus absolute
expiry timestamp. -/
structure CacheEntry (α : Type) where
  value : α
  expiresAt : ℚ
deriving DecidableEq

/-- Modelled from the spec: what one `TTLCache.get` call produces — the
value or error handed to the caller, the entry for the key afterwards, and
how many times the producer was invoked during the call. -/
structure GetResult (ε α : Type) where
  result : Except ε α
  entry : Option (CacheEntry α)
  producerCalls : ℕ

/-- Modelled from the spec: the refresh arm of `TTLCache.get` (§4.1 items 2
and 4): the producer runs once; a success is stored with
`expiresAt = now + ttl`; a failure is propagated and stores nothing — the
previous (already expired) entry is left as is. -/
def cacheRefresh (ttl now : ℚ) (entry : Option (CacheEntry α))
    (producer : Except ε α) : GetResult ε α :=
  match producer with
  | Except.ok v => ⟨Except.ok v, some ⟨v, now + ttl⟩, 1⟩
  | Except.error err => ⟨Except.error err, entry, 1⟩

/-- Modelled from the spec: one sequential `TTLCache.get` (§4.1 items 1, 2
and 4), with the producer's outcome passed as data: a fresh entry
(`now < expiresAt`) is served without invoking the producer; a missing or
expired entry triggers one refresh. -/
def cacheGet (ttl now : ℚ) (entry : Option (CacheEntry α))
    (producer : Except ε α) : GetResult ε α :=
  match entry with
  | some e =>
    if now < e.expiresAt then ⟨Except.ok e.value, some e, 0⟩
    else cacheRefresh ttl now entry producer
  | none => cacheRefresh ttl now entry producer

/-! ## Single-flight (spec-modelled)

Modelled from the spec (§4.1 item 3, §5): the single-flight machinery lives
inside the caching decorator, not under `src/`.  The state below tracks one
cache key during one refresh episode (the entry is missing or expired
throughout, so every arriving caller joins the in-flight computation). -/

/-- Modelled from the spec: the single-flight state of one key — the callers
joined on the in-flight computation (empty list = no computation in flight),
the number of producer invocations so far, and the results delivered to
callers. -/
structure FlightState (ε α : Type) where
  waiters : List ℕ
  producerCalls : ℕ
  delivered : List (ℕ × Except ε α)

/-- Modelled from the spec: what can happen on the key — a caller arrives,
or the in-flight producer completes with a value or error. -/
inductive FlightEvent (ε α : Type) where
  | arrive (caller : ℕ)
  | complete (r : Except ε α)

/-- Modelled from the spec: the transition function.  The first caller to
find no computation in flight starts the producer (§4.1 item 2); later
arrivals join it (§4.1 item 3); completion delivers the same outcome to
every joined caller and clears the in-flight marker (§5, §7). -/
def flightStep (s : FlightState ε α) : FlightEvent ε α → FlightState ε α
  | FlightEvent.arrive c =>
    if s.waiters.isEmpty then
      { s with waiters := [c], producerCalls := s.producerCalls + 1 }
    else { s with waiters := c :: s.waiters }
  | FlightEvent.complete r =>
    { waiters := [], producerCalls := s.producerCalls,
      delivered := s.delivered ++ s.waiters.map (fun c => (c, r)) }

/-- Run a sequence of single-flight events. -/
def flightRun (s : FlightState ε α) (evs : List (FlightEvent ε α)) :
    FlightState ε α :=
  evs.foldl flightStep s

/-- The initial single-flight state: no waiters, no producer invocations,
nothing delivered. -/
def flightInit (ε α : Type) : FlightState ε α := ⟨[], 0, []⟩

/-! ## Cooldown buckets (spec-modelled)

The `CooldownMapping` / `Cooldown` classes come from the discord commands
library, not `src/`; the definitions below are modelled from the spec
(§4.2).  What `src/` does contribute is embedded afterwards: the two
configurations bound in `Memes.__init__` and the two call sites. -/

/-- Rate parameters, bound at cooldown-mapping construction (§4.2, §9). -/
structure CooldownConfig where
  limit : ℕ
  period : ℚ
deriving DecidableEq

/-- `self.meme_cooldown = CooldownMapping.from_cooldown(1, 5, ...)`
(memes.py line 40). -/
def memeCooldownConfig : CooldownConfig := ⟨1, 5⟩

/-- `self.res_cooldown = CooldownMapping.from_cooldown(1, 15, ...)`
(memes.py line 42). -/
def resCooldownConfig : CooldownConfig := ⟨1, 15⟩

/-- Modelled from the spec: one cooldown bucket (§3). -/
structure CooldownBucket where
  windowStart : ℚ
  count : ℕ
deriving DecidableEq

/-- Modelled from the spec: `checkAndConsume` (§4.2 steps 1-3): reset the
window if it has elapsed, deny without incrementing when the permits are
exhausted, otherwise consume one permit. -/
def checkAndConsume (cfg : CooldownConfig) (b : CooldownBucket) (now : ℚ) :
    Bool × CooldownBucket :=
  let b' := if b.windowStart + cfg.period ≤ now then ⟨now, 0⟩ else b
  if cfg.limit ≤ b'.count then (false, b')
  else (true, ⟨b'.windowStart, b'.count + 1⟩)

/-- Modelled from the spec: a lazily created bucket (§4.2) — the window
starts at the first call's time with no permits consumed. -/
def freshBucket (now : ℚ) : CooldownBucket := ⟨now, 0⟩

/-- The allowed/denied outcomes of a sequence of `checkAndConsume` calls at
the given times, starting from bucket `b`. -/
def runAllowed (cfg : CooldownConfig) (b : CooldownBucket) :
    List ℚ → List Bool
  | [] => []
  | t :: ts =>
    let r := checkAndConsume cfg b t
    r.1 :: runAllowed cfg r.2 ts

/-- The bucket after a sequence of `checkAndConsume` calls. -/
def runBucket (cfg : CooldownConfig) (b : CooldownBucket) :
    List ℚ → CooldownBucket
  | [] => b
  | t :: ts => runBucket cfg (checkAndConsume cfg b t).2 ts

/-- The times of the calls that were allowed, in order. -/
def allowedTimes (cfg : CooldownConfig) (b : CooldownBucket) :
    List ℚ → List ℚ
  | [] => []
  | t :: ts =>
    let r := checkAndConsume cfg b t
    if r.1 then t :: allowedTimes cfg r.2 ts else allowedTimes cfg r.2 ts

/-- A full history of one key: the bucket is created lazily at the first
call. -/
def runAllowedFromStart (cfg : CooldownConfig) : List ℚ → List Bool
  | [] => []
  | t :: ts => runAllowed cfg (freshBucket t) (t :: ts)

/-- As `runAllowedFromStart`, but collecting the allowed calls' times. -/
def allowedTimesFromStart (cfg : CooldownConfig) : List ℚ → List ℚ
  | [] => []
  | t :: ts => allowedTimes cfg (freshBucket t) (t :: ts)

/-- How many `checkAndConsume` calls of a full history were allowed with a
call time inside the half-open interval `[a, a + period)`. -/
def countAllowedIn (cfg : CooldownConfig) (ts : List ℚ) (a : ℚ) : ℕ :=
  ((allowedTimesFromStart cfg ts).filter
    (fun t => decide (a ≤ t) && decide (t < a + cfg.period))).length

/-! ## The two cooldown call sites (from src) -/

/-- Embeds the cooldown interaction of `Memes.meme` (memes.py lines 66-70):
`bucket.update_rate_limit(current)` is evaluated first — it always updates
the bucket — and the moderator check only gates the raise.  Returns whether
"That meme is on cooldown." is raised, and the bucket afterwards. -/
def memeCooldownStep (isMod : Bool) (b : CooldownBucket) (now : ℚ) :
    Bool × CooldownBucket :=
  let r := checkAndConsume memeCooldownConfig b now
  (!r.1 && !isMod, r.2)

/-- Embeds the cooldown interaction of `Memes.neural_net` (memes.py lines
309-314): for a moderator the whole `if not is_mod:` block is skipped — the
bucket is neither looked up nor updated.  Returns whether "That command is
on cooldown." is raised, and the bucket afterwards. -/
def neuralNetCooldownStep (isMod : Bool) (b : CooldownBucket) (now : ℚ) :
    Bool × CooldownBucket :=
  if isMod then (false, b)
  else
    let r := checkAndConsume resCooldownConfig b now
    (!r.1, r.2)

/-! ## Helper lemmas about `pySort` -/

theorem pySort_sorted (l : List Str) : List.Sorted strLeP (pySort l) :=
  List.sorted_insertionSort strLeP l

theorem pySort_perm (l : List Str) : (pySort l).Perm l :=
  List.perm_insertionSort strLeP l

/-- Sorting then filtering gives the same list as filtering then sorting:
both sides are sorted and they are permutations of each other. -/
theorem filter_pySort (p : Str → Bool) (l : List Str) :
    (pySort l).filter p = pySort (l.filter p) := by
  apply List.eq_of_perm_of_sorted (r := strLeP)
  · exact ((pySort_perm l).filter p).trans (pySort_perm (l.filter p)).symm
  · exact (pySort_sorted l).filter p
  · exact pySort_sorted (l.filter p)

/-! ## C10 — failed fetch raises, the None guards are unreachable -/

/-- C10: whenever the HTTP status is not 200, `get_ios_cfw` raises
`UnboundLocalError` (the local `data` was never assigned) instead of
returning `None` or any default; consequently `jb_autocomplete` and
`ios_autocomplete` propagate that error rather than reaching their
`if ... is None` guards, so a failed fetch can never produce their `[]`
answer. -/
theorem get_ios_cfw_non200_raises (resp : Response (Option CFWData))
    (value : Str) (h : resp.status ≠ 200) :
    get_ios_cfw resp = Except.error PyErr.unboundLocalError ∧
    jb_autocomplete resp value = Except.error PyErr.unboundLocalError ∧
    ios_autocomplete resp value = Except.error PyErr.unboundLocalError := by
  have hg : get_ios_cfw resp = Except.error PyErr.unboundLocalError := by
    simp [get_ios_cfw, h]
  exact ⟨hg, by simp [jb_autocomplete, hg], by simp [ios_autocomplete, hg]⟩

/-- Witness for C10 at status 404. -/
theorem get_ios_cfw_non200_raises_witness :
    (404 : ℕ) ≠ 200 ∧
    get_ios_cfw ⟨404, none⟩ = Except.error PyErr.unboundLocalError ∧
    jb_autocomplete ⟨404, none⟩ [] = Except.error PyErr.unboundLocalError ∧
    ios_autocomplete ⟨404, none⟩ [] = Except.error PyErr.unboundLocalError :=
  ⟨by decide, get_ios_cfw_non200_raises ⟨404, none⟩ [] (by decide)⟩

/-! ## C3 — freshness -/

/-- C3: a `get` within `ttl` seconds of the last successful refresh — which
stored the value with `expiresAt = refreshTime + ttl` — returns the stored
value immediately, leaves the entry untouched and performs zero producer
invocations, whatever the producer would have done. -/
theorem cacheGet_fresh {α ε : Type} (ttl refreshTime now : ℚ) (v : α)
    (producer : Except ε α) (h : now < refreshTime + ttl) :
    cacheGet ttl now (some ⟨v, refreshTime + ttl⟩) producer =
      ⟨Except.ok v, some ⟨v, refreshTime + ttl⟩, 0⟩ := by
  simp [cacheGet, h]

/-- Witness for C3: entry refreshed at time 0 with ttl 3600, read at
time 1800, over a producer that would fail — it is not consulted. -/
theorem cacheGet_fresh_witness :
    ((1800 : ℚ) < 0 + 3600) ∧
    cacheGet 3600 1800 (some ⟨7, 0 + 3600⟩)
        (Except.error (α := ℕ) PyErr.typeError) =
      ⟨Except.ok 7, some ⟨7, 0 + 3600⟩, 0⟩ :=
  ⟨by norm_num,
   cacheGet_fresh 3600 0 1800 7 (Except.error PyErr.typeError) (by norm_num)⟩

/-! ## C9 — expiry -/

/-- C9: a `get` at or after the entry's `expiresAt` invokes the producer
exactly once and, on success, stores the produced value with
`expiresAt = now + ttl` and returns it. -/
theorem cacheGet_expired {α ε : Type} (ttl now : ℚ) (e : CacheEntry α)
    (v : α) (h : e.expiresAt ≤ now) :
    cacheGet (ε := ε) ttl now (some e) (Except.ok v) =
      ⟨Except.ok v, some ⟨v, now + ttl⟩, 1⟩ := by
  simp [cacheGet, cacheRefresh, not_lt.mpr h]

/-- Witness for C9: an entry expired at time 3600 is refreshed by a read at
time 3601. -/
theorem cacheGet_expired_witness :
    ((3600 : ℚ) ≤ 3601) ∧
    cacheGet (ε := ℕ) 3600 3601 (some ⟨7, 3600⟩) (Except.ok 8) =
      ⟨Except.ok 8, some ⟨8, 3601 + 3600⟩, 1⟩ :=
  ⟨by norm_num, cacheGet_expired 3600 3601 ⟨7, 3600⟩ 8 (by norm_num)⟩

/-! ## C4 — failure policy (corrected) -/

/-- C4 counterexample: a non-success HTTP status is not a producer failure
for `get_signed_status` — at status 500 it returns the default `[]`, the
cache stores an entry for the key, and a caller inside the 1800-second ttl
is served that default with zero producer invocations, contradicting the
claim that a non-success status stores no entry and hands every caller an
error. -/
theorem get_signed_status_failure_cached :
    get_signed_status (⟨500, [['s']]⟩ : Response (List Str)) = [] ∧
    cacheGet 1800 0 none
        (Except.ok (ε := PyErr)
          (get_signed_status (⟨500, [['s']]⟩ : Response (List Str)))) =
      ⟨Except.ok [], some ⟨[], 0 + 1800⟩, 1⟩ ∧
    cacheGet 1800 1 (some ⟨([] : List Str), 0 + 1800⟩)
        (Except.error PyErr.typeError) =
      ⟨Except.ok [], some ⟨[], 0 + 1800⟩, 0⟩ := by
  have h : get_signed_status (⟨500, [['s']]⟩ : Response (List Str)) = [] := by
    simp [get_signed_status]
  refine ⟨h, ?_, ?_⟩
  · rw [h]; simp [cacheGet, cacheRefresh]
  · have : (1 : ℚ) < 0 + 1800 := by norm_num
    simp [cacheGet, this]

/-- C4 amended: for a producer that raises — as `get_ios_cfw` does on every
non-200 status — the failure policy holds: the caller receives the error, no
entry is stored (a missing entry stays missing, an expired entry stays
expired), and a later call runs the producer again, so the key is not
poisoned.  But `get_devices` and `get_signed_status` swallow a non-success
HTTP status and return a default empty list, which the cache stores and
serves for the rest of the ttl. -/
theorem cacheGet_producer_error (ttl now later : ℚ)
    (resp : Response (Option CFWData)) (p₂ : Except PyErr (Option CFWData))
    (h : resp.status ≠ 200) :
    cacheGet ttl now none (get_ios_cfw resp) =
      ⟨Except.error PyErr.unboundLocalError, none, 1⟩ ∧
    (∀ e : CacheEntry (Option CFWData), e.expiresAt ≤ now →
      cacheGet ttl now (some e) (get_ios_cfw resp) =
        ⟨Except.error PyErr.unboundLocalError, some e, 1⟩) ∧
    (cacheGet ttl later none p₂).producerCalls = 1 ∧
    (∀ s : Response (List Str), s.status ≠ 200 → get_signed_status s = []) := by
  have hg : get_ios_cfw resp = Except.error PyErr.unboundLocalError := by
    simp [get_ios_cfw, h]
  refine ⟨?_, ?_, ?_, ?_⟩
  · rw [hg]; simp [cacheGet, cacheRefresh]
  · intro e he
    rw [hg]; simp [cacheGet, cacheRefresh, not_lt.mpr he]
  · cases p₂ with
    | ok v => simp [cacheGet, cacheRefresh]
    | error e => simp [cacheGet, cacheRefresh]
  · intro s hs
    simp [get_signed_status, hs]

/-- Witness for the amended C4 at status 503. -/
theorem cacheGet_producer_error_witness :
    ((503 : ℕ) ≠ 200) ∧
    cacheGet 3600 0 none (get_ios_cfw ⟨503, none⟩) =
      ⟨Except.error PyErr.unboundLocalError, none, 1⟩ ∧
    (cacheGet 3600 10 none
      (Except.ok (ε := PyErr) (none : Option CFWData))).producerCalls = 1 :=
  ⟨by decide,
   (cacheGet_producer_error 3600 0 10 ⟨503, none⟩ (Except.ok none)
     (by decide)).1,
   (cacheGet_producer_error 3600 0 10 ⟨503, none⟩ (Except.ok none)
     (by decide)).2.2.1⟩

/-! ## C5 — privileged bypass (corrected) -/

/-- C5 counterexample: in `Memes.meme` a moderator's invocation does not
skip the check-and-consume call.  `bucket.update_rate_limit(current)` runs
before the role check, so from a fresh bucket at t = 0 a moderator's call
changes the bucket: the consumed count goes from 0 to 1. -/
theorem meme_mod_consumes_permit :
    (memeCooldownStep true (freshBucket 0) 0).2 ≠ freshBucket 0 ∧
    (memeCooldownStep true (freshBucket 0) 0).2.count = 1 := by
  have h : memeCooldownStep true (freshBucket 0) 0 = (false, ⟨0, 1⟩) := by
    norm_num [memeCooldownStep, checkAndConsume, freshBucket,
      memeCooldownConfig]
  rw [h]
  exact ⟨by simp [freshBucket], rfl⟩

/-- C5 amended: `Memes.neural_net` does skip the cooldown block entirely for
a moderator — the bucket is returned unchanged and nothing is raised — while
`Memes.meme` always executes check-and-consume: the bucket is updated
exactly as for an unprivileged caller and privilege only suppresses the
denial (a privileged call is never rejected).  The bucket-update function
itself takes no role information in either case. -/
theorem privileged_bypass_per_handler (isMod : Bool) (b : CooldownBucket)
    (now : ℚ) :
    neuralNetCooldownStep true b now = (false, b) ∧
    (memeCooldownStep isMod b now).2 =
      (checkAndConsume memeCooldownConfig b now).2 ∧
    (memeCooldownStep true b now).1 = false := by
  refine ⟨by simp [neuralNetCooldownStep], by simp [memeCooldownStep], ?_⟩
  simp [memeCooldownStep]

/-! ## C8 — concrete window-reset scenario -/

/-- C8: with the `meme` configuration (limit 1, period 5 s) a call at t = 0
is allowed, a call at t = 2 is denied and leaves the bucket — including its
count — unchanged, and a call at t = 5.001 is allowed again because the
window elapsed and the count was reset before consuming. -/
theorem meme_window_reset_scenario :
    runAllowedFromStart memeCooldownConfig [0, 2, 5.001] =
      [true, false, true] ∧
    runBucket memeCooldownConfig (freshBucket 0) [0, 2] =
      runBucket memeCooldownConfig (freshBucket 0) [0] ∧
    runBucket memeCooldownConfig (freshBucket 0) [0, 2, 5.001] =
      ⟨5.001, 1⟩ := by
  norm_num [runAllowedFromStart, runAllowed, runBucket, checkAndConsume,
    freshBucket, memeCooldownConfig]

/-! ## C7 — cached-value immutability (violated by the code) -/

/-- C7: the code does mutate cached entries through the reference obtained
from the cache: `ios_autocomplete`'s `versions.reverse()` reverses the
cached `main.json` object's `"ios"` list in place.  Concretely, with two
cached versions 14.0 and 15.0, one call changes the cached object, and a
second call within the ttl — served from that same object — returns the
versions in the opposite order from the first call: two successive cache
hits observe different values. -/
theorem ios_autocomplete_mutates_cache :
    (ios_autocompleteOnCache
        ⟨[⟨"14.0".data, "18A373".data⟩, ⟨"15.0".data, "19A346".data⟩], []⟩
        []).2 ≠
      ⟨[⟨"14.0".data, "18A373".data⟩, ⟨"15.0".data, "19A346".data⟩], []⟩ ∧
    (ios_autocompleteOnCache
        (ios_autocompleteOnCache
          ⟨[⟨"14.0".data, "18A373".data⟩, ⟨"15.0".data, "19A346".data⟩], []⟩
          []).2 []).1 ≠
      (ios_autocompleteOnCache
        ⟨[⟨"14.0".data, "18A373".data⟩, ⟨"15.0".data, "19A346".data⟩], []⟩
        []).1 := by decide

/-! ## C6 — autocomplete contract (corrected) -/

/-- C6 counterexample: the cached device name "Zebra" matches the empty
prefix, but `device_autocomplete` drops it because its first word is not an
accepted device family — so the function does not return exactly the
prefix-matching candidates, which here would be ["Zebra"]. -/
theorem device_autocomplete_drops_matching_candidate :
    device_autocomplete ["Zebra".data] [] = Except.ok [] ∧
    specAutocompleteContract ["Zebra".data] [] = ["Zebra".data] :=
  ⟨rfl, by decide⟩

/-- When every candidate matching the prefix has a first word, the device
comprehension raises nothing and computes the two-condition filter. -/
theorem deviceComprehension_ok (value : Str) (l : List Str)
    (h : ∀ d ∈ l, pyStartsWith (pyLower d) (pyLower value) = true →
      (firstWord (pyLower d)).isSome = true) :
    deviceComprehension value l =
      Except.ok (l.filter
        (fun d => pyStartsWith (pyLower d) (pyLower value) &&
          deviceFamilyOk d)) := by
  induction l with
  | nil => rfl
  | cons d ds ih =>
    have hds : ∀ x ∈ ds, pyStartsWith (pyLower x) (pyLower value) = true →
        (firstWord (pyLower x)).isSome = true :=
      fun x hx => h x (List.mem_cons_of_mem d hx)
    by_cases hpre : pyStartsWith (pyLower d) (pyLower value) = true
    · have hsome := h d (List.mem_cons_self d ds) hpre
      obtain ⟨w, hw⟩ := Option.isSome_iff_exists.mp hsome
      simp only [deviceComprehension, hpre, if_true, hw, ih hds,
        List.filter_cons, deviceFamilyOk, Bool.true_and]
    · simp only [deviceComprehension, hpre, if_false, ih hds,
        List.filter_cons]
      simp [hpre]

/-- A whitespace-only candidate that matches the prefix makes the device
comprehension raise `IndexError`, wherever it sits in the list. -/
theorem deviceComprehension_raises (value : Str) (l : List Str) (d : Str)
    (hd : d ∈ l) (hpre : pyStartsWith (pyLower d) (pyLower value) = true)
    (hfw : firstWord (pyLower d) = none) :
    deviceComprehension value l = Except.error PyErr.indexError := by
  induction l with
  | nil => cases hd
  | cons a as ih =>
    rcases List.mem_cons.mp hd with h | h
    · subst h
      simp only [deviceComprehension, hpre, if_true, hfw]
    · have hrec := ih h
      by_cases hpa : pyStartsWith (pyLower a) (pyLower value) = true
      · simp only [deviceComprehension, hpa, if_true]
        cases hfa : firstWord (pyLower a) with
        | none => rfl
        | some w => rw [hrec]
      · simp only [deviceComprehension, hpa, if_false]
        exact hrec

/-- C6 amended: `memes_autocomplete` satisfies the contract over the
lowercased candidates.  `device_autocomplete` raises `IndexError` whenever
some whitespace-only cached candidate matches the prefix (Python evaluates
`device.lower().split()[0]` on an empty word list); when no matching
candidate is whitespace-only it satisfies the contract only after the
candidates are additionally restricted to names whose lowercased first word
is one of the five device families.  And `jb_autocomplete` raises
`TypeError` whenever the cached jailbreak list has two or more entries
(`apps.sort()` compares dicts), satisfying the contract only in the
degenerate cases of at most one entry. -/
theorem autocomplete_contract_amended :
    (∀ (names : List Str) (value : Str),
      memes_autocomplete names value =
        specAutocompleteContract (names.map pyLower) value) ∧
    (∀ (devices : List Str) (value : Str),
      (∀ d ∈ devices, pyStartsWith (pyLower d) (pyLower value) = true →
        (firstWord (pyLower d)).isSome = true) →
      device_autocomplete devices value =
        Except.ok
          (specAutocompleteContract (devices.filter deviceFamilyOk) value)) ∧
    (∀ (devices : List Str) (value : Str) (d : Str), d ∈ devices →
      pyStartsWith (pyLower d) (pyLower value) = true →
      firstWord (pyLower d) = none →
      device_autocomplete devices value = Except.error PyErr.indexError) ∧
    (∀ (d : CFWData) (value : Str), 2 ≤ d.jailbreak.length →
      jb_autocomplete ⟨200, some d⟩ value = Except.error PyErr.typeError) ∧
    (∀ (d : CFWData) (value : Str), d.jailbreak.length ≤ 1 →
      jb_autocomplete ⟨200, some d⟩ value =
        Except.ok
          (specAutocompleteContract (d.jailbreak.map JBEntry.name) value)) := by
  refine ⟨?_, ?_, ?_, ?_, ?_⟩
  · intro names value
    rw [memes_autocomplete, specAutocompleteContract, filter_pySort]
  · intro devices value h
    have h' : ∀ d ∈ pySort devices,
        pyStartsWith (pyLower d) (pyLower value) = true →
        (firstWord (pyLower d)).isSome = true :=
      fun d hd => h d ((pySort_perm devices).mem_iff.mp hd)
    rw [device_autocomplete, deviceComprehension_ok value (pySort devices) h',
      specAutocompleteContract, filter_pySort, List.filter_filter]
    rfl
  · intro devices value d hd hpre hfw
    rw [device_autocomplete,
      deviceComprehension_raises value (pySort devices) d
        ((pySort_perm devices).mem_iff.mpr hd) hpre hfw]
    rfl
  · intro d value h
    simp [jb_autocomplete, get_ios_cfw, h]
  · intro d value h
    have hd : d.jailbreak = [] ∨ ∃ a, d.jailbreak = [a] := by
      cases hj : d.jailbreak with
      | nil => exact Or.inl rfl
      | cons a t =>
        cases t with
        | nil => exact Or.inr ⟨a, rfl⟩
        | cons b u => rw [hj] at h; simp at h
    rcases hd with hj | ⟨a, hj⟩
    · simp [jb_autocomplete, get_ios_cfw, hj, specAutocompleteContract,
        pySort, List.insertionSort]
    · by_cases hf : pyStartsWith (pyLower a.name) (pyLower value)
      · simp [jb_autocomplete, get_ios_cfw, hj, specAutocompleteContract,
          pySort, List.insertionSort, List.orderedInsert, hf]
      · simp [jb_autocomplete, get_ios_cfw, hj, specAutocompleteContract,
          pySort, List.insertionSort, List.orderedInsert, hf]

/-- Witness for the amended C6: the memes contract at a concrete unsorted
candidate list; the device contract at a family candidate; the device
`IndexError` at a cached empty-string candidate matching the empty prefix;
the jailbreak `TypeError` at a two-entry list. -/
theorem autocomplete_contract_amended_witness :
    memes_autocomplete ["B".data, "a".data] [] =
      specAutocompleteContract (["B".data, "a".data].map pyLower) [] ∧
    device_autocomplete ["iPad 2".data] [] =
      Except.ok
        (specAutocompleteContract (["iPad 2".data].filter deviceFamilyOk) []) ∧
    device_autocomplete [[]] [] = Except.error PyErr.indexError ∧
    jb_autocomplete ⟨200, some ⟨[], [⟨"u0".data⟩, ⟨"t2".data⟩]⟩⟩ [] =
      Except.error PyErr.typeError :=
  ⟨autocomplete_contract_amended.1 ["B".data, "a".data] [],
   autocomplete_contract_amended.2.1 ["iPad 2".data] [] (by decide),
   autocomplete_contract_amended.2.2.1 [[]] [] [] (by decide) (by decide)
     (by decide),
   autocomplete_contract_amended.2.2.2.1 ⟨[], [⟨"u0".data⟩, ⟨"t2".data⟩]⟩ []
     (by decide)⟩

/-! ## C1 — single flight -/

theorem flightRun_cons (s : FlightState ε α) (e : FlightEvent ε α)
    (evs : List (FlightEvent ε α)) :
    flightRun s (e :: evs) = flightRun (flightStep s e) evs := rfl

/-- Arrivals on a key whose computation is already in flight only join the
waiter list: no producer invocation, no delivery. -/
theorem flightRun_arrive_group (cs : List ℕ) (s : FlightState ε α)
    (h : s.waiters ≠ []) :
    flightRun s (cs.map FlightEvent.arrive) =
      { s with waiters := cs.reverse ++ s.waiters } := by
  induction cs generalizing s with
  | nil => simp [flightRun]
  | cons c cs ih =>
    have hne : s.waiters.isEmpty = false := by
      cases hw : s.waiters with
      | nil => exact absurd hw h
      | cons a l => rfl
    have hstep : flightStep s (FlightEvent.arrive c) =
        { s with waiters := c :: s.waiters } := by
      simp [flightStep, hne]
    rw [List.map_cons, flightRun_cons, hstep,
      ih { s with waiters := c :: s.waiters } (by simp)]
    simp

/-- C1: for every nonempty group of callers arriving — in any order — on a
key whose entry is missing or expired, followed by the completion of the
producer with outcome `r` (a value or an error): the producer is invoked
exactly once, every caller in the group is delivered `r`, and nothing but
`r` is ever delivered. -/
theorem single_flight {ε α : Type} (cs : List ℕ) (r : Except ε α)
    (h : cs ≠ []) :
    (flightRun (flightInit ε α)
      (cs.map FlightEvent.arrive ++ [FlightEvent.complete r])).producerCalls
        = 1 ∧
    (∀ c ∈ cs, (c, r) ∈
      (flightRun (flightInit ε α)
        (cs.map FlightEvent.arrive ++ [FlightEvent.complete r])).delivered) ∧
    (∀ p ∈
      (flightRun (flightInit ε α)
        (cs.map FlightEvent.arrive ++ [FlightEvent.complete r])).delivered,
      p.2 = r) := by
  cases cs with
  | nil => exact absurd rfl h
  | cons c cs' =>
    have h1 : flightStep (flightInit ε α) (FlightEvent.arrive c) =
        ⟨[c], 1, []⟩ := by
      simp [flightStep, flightInit]
    have h2 : flightRun (flightInit ε α) ((c :: cs').map FlightEvent.arrive) =
        ⟨cs'.reverse ++ [c], 1, []⟩ := by
      rw [List.map_cons, flightRun_cons, h1,
        flightRun_arrive_group cs' ⟨[c], 1, []⟩ (by simp)]
    have h3 : flightRun (flightInit ε α)
        ((c :: cs').map FlightEvent.arrive ++ [FlightEvent.complete r]) =
        ⟨[], 1, (cs'.reverse ++ [c]).map (fun x => (x, r))⟩ := by
      rw [flightRun, List.foldl_append]
      rw [flightRun] at h2
      rw [h2]
      simp [flightStep]
    rw [h3]
    refine ⟨rfl, ?_, ?_⟩
    · intro x hx
      simp only [List.mem_map]
      refine ⟨x, ?_, rfl⟩
      simp only [List.mem_append, List.mem_reverse, List.mem_singleton]
      simp only [List.mem_cons] at hx
      tauto
    · intro p hp
      simp only [List.mem_map] at hp
      obtain ⟨x, _, hx⟩ := hp
      rw [← hx]

/-- Witness for C1: three callers race on the key; the producer runs once. -/
theorem single_flight_witness :
    ([0, 1, 2] : List ℕ) ≠ [] ∧
    (flightRun (flightInit ℕ ℕ)
      ([0, 1, 2].map FlightEvent.arrive ++
        [FlightEvent.complete (Except.ok 7)])).producerCalls = 1 :=
  ⟨by decide, (single_flight [0, 1, 2] (Except.ok 7) (by decide)).1⟩

/-! ## C2 — rate-limit boundedness -/

theorem checkAndConsume_count_le (cfg : CooldownConfig) (b : CooldownBucket)
    (now : ℚ) (h : b.count ≤ cfg.limit) :
    (checkAndConsume cfg b now).2.count ≤ cfg.limit := by
  rcases b with ⟨w, c⟩
  by_cases hr : w + cfg.period ≤ now
  · by_cases hl : cfg.limit ≤ 0
    · simp [checkAndConsume, hr, hl]
    · simp [checkAndConsume, hr, hl]
      omega
  · by_cases hl : cfg.limit ≤ c
    · simp only [CooldownBucket.count] at h
      simp [checkAndConsume, hr, hl, h]
    · simp [checkAndConsume, hr, hl]
      simp only [CooldownBucket.count] at h ⊢
      omega

theorem runBucket_count_le (cfg : CooldownConfig) (ts : List ℚ)
    (b : CooldownBucket) (h : b.count ≤ cfg.limit) :
    (runBucket cfg b ts).count ≤ cfg.limit := by
  induction ts generalizing b with
  | nil => exact h
  | cons t ts ih =>
    rw [runBucket]
    exact ih _ (checkAndConsume_count_le cfg b t h)

theorem checkAndConsume_one_reset (cfg : CooldownConfig)
    (hl : cfg.limit = 1) (w t : ℚ) (h : w + cfg.period ≤ t) :
    checkAndConsume cfg ⟨w, 1⟩ t = (true, ⟨t, 1⟩) := by
  simp [checkAndConsume, h, hl]

theorem checkAndConsume_one_denied (cfg : CooldownConfig)
    (hl : cfg.limit = 1) (w t : ℚ) (h : ¬ (w + cfg.period ≤ t)) :
    checkAndConsume cfg ⟨w, 1⟩ t = (false, ⟨w, 1⟩) := by
  simp [checkAndConsume, h, hl]

/-- With limit 1, starting from a bucket whose single permit was consumed at
its window start `w`, every later allowed call happens at least one period
after `w`, and the allowed calls are pairwise at least one period apart. -/
theorem allowedTimes_one_sep (cfg : CooldownConfig) (hl : cfg.limit = 1) :
    ∀ (ts : List ℚ) (w : ℚ), List.Chain' (· ≤ ·) (w :: ts) →
      (∀ x ∈ allowedTimes cfg ⟨w, 1⟩ ts, w + cfg.period ≤ x) ∧
      List.Pairwise (fun x y => x + cfg.period ≤ y)
        (allowedTimes cfg ⟨w, 1⟩ ts) := by
  intro ts
  induction ts with
  | nil => intro w _; simp [allowedTimes]
  | cons t ts ih =>
    intro w hc
    obtain ⟨hwt, hct⟩ := List.chain'_cons.mp hc
    by_cases hres : w + cfg.period ≤ t
    · have hstep := checkAndConsume_one_reset cfg hl w t hres
      obtain ⟨ht1, ht2⟩ := ih t hct
      have hrw : allowedTimes cfg ⟨w, 1⟩ (t :: ts) =
          t :: allowedTimes cfg ⟨t, 1⟩ ts := by
        rw [allowedTimes, hstep]
        simp
      rw [hrw]
      constructor
      · intro x hx
        rcases List.mem_cons.mp hx with hx | hx
        · rw [hx]; exact hres
        · have : t + cfg.period ≤ x := ht1 x hx
          have : w + cfg.period ≤ t + cfg.period := by linarith
          linarith [ht1 x hx]
      · exact List.pairwise_cons.mpr ⟨fun y hy => ht1 y hy, ht2⟩
    · have hstep := checkAndConsume_one_denied cfg hl w t hres
      have hrw : allowedTimes cfg ⟨w, 1⟩ (t :: ts) =
          allowedTimes cfg ⟨w, 1⟩ ts := by
        rw [allowedTimes, hstep]
        simp
      rw [hrw]
      apply ih w
      rcases List.chain'_cons'.mp hct with ⟨hhead, htail⟩
      exact List.chain'_cons'.mpr
        ⟨fun y hy => le_trans hwt (hhead y hy), htail⟩

/-- With limit 1 and a positive period, the allowed calls of a full history
(nondecreasing call times, bucket created lazily at the first call) are
pairwise at least one period apart. -/
theorem allowedTimesFromStart_sep (cfg : CooldownConfig)
    (hl : cfg.limit = 1) (hp : 0 < cfg.period) (ts : List ℚ)
    (hc : List.Chain' (· ≤ ·) ts) :
    List.Pairwise (fun x y => x + cfg.period ≤ y)
      (allowedTimesFromStart cfg ts) := by
  cases ts with
  | nil => simp [allowedTimesFromStart]
  | cons t ts =>
    have hfirst : checkAndConsume cfg (freshBucket t) t = (true, ⟨t, 1⟩) := by
      have hnr : ¬ (t + cfg.period ≤ t) := by linarith
      simp [checkAndConsume, freshBucket, hnr, hl]
    have hsep := allowedTimes_one_sep cfg hl ts t hc
    have hrw : allowedTimesFromStart cfg (t :: ts) =
        t :: allowedTimes cfg ⟨t, 1⟩ ts := by
      rw [allowedTimesFromStart, allowedTimes, hfirst]
      simp
    rw [hrw]
    exact List.pairwise_cons.mpr ⟨fun y hy => hsep.1 y hy, hsep.2⟩

/-- A list whose elements are pairwise at least `p` apart has at most one
element in any half-open interval `[a, a + p)`. -/
theorem pairwise_sep_filter_interval (p a : ℚ) (l : List ℚ)
    (h : List.Pairwise (fun x y => x + p ≤ y) l) :
    (l.filter (fun t => decide (a ≤ t) && decide (t < a + p))).length ≤ 1 := by
  have hpf := h.filter (fun t => decide (a ≤ t) && decide (t < a + p))
  cases hfl : l.filter (fun t => decide (a ≤ t) && decide (t < a + p)) with
  | nil => simp [hfl]
  | cons x xs =>
    cases xs with
    | nil => simp [hfl]
    | cons y ys =>
      exfalso
      rw [hfl] at hpf
      have hxy : x + p ≤ y := (List.pairwise_cons.mp hpf).1 y (by simp)
      have hx : x ∈ l.filter (fun t => decide (a ≤ t) && decide (t < a + p)) := by
        rw [hfl]; simp
      have hy : y ∈ l.filter (fun t => decide (a ≤ t) && decide (t < a + p)) := by
        rw [hfl]; simp
      have hx' := (List.mem_filter.mp hx).2
      have hy' := (List.mem_filter.mp hy).2
      simp only [Bool.and_eq_true, decide_eq_true_eq] at hx' hy'
      linarith [hx'.1, hx'.2, hy'.1, hy'.2]

/-- C2: for the two cooldown configurations the source constructs (both have
limit 1: one permit per 5 s for memes, one per 15 s for the neural net), and
any nondecreasing history of check-and-consume call times on one key, the
number of calls answered `allowed` whose time lies in any half-open interval
`[a, a + period)` is at most `limit`; and for every history whatsoever the
bucket's consumed count never exceeds `limit`. -/
theorem rate_limit_bounded (cfg : CooldownConfig)
    (hcfg : cfg = memeCooldownConfig ∨ cfg = resCooldownConfig)
    (ts : List ℚ) (hts : List.Chain' (· ≤ ·) ts) (a : ℚ) :
    countAllowedIn cfg ts a ≤ cfg.limit ∧
    (∀ (t₀ : ℚ) (calls : List ℚ),
      (runBucket cfg (freshBucket t₀) calls).count ≤ cfg.limit) := by
  have hl : cfg.limit = 1 := by
    rcases hcfg with h | h <;> subst h <;> rfl
  have hp : 0 < cfg.period := by
    rcases hcfg with h | h <;> subst h <;>
      norm_num [memeCooldownConfig, resCooldownConfig]
  constructor
  · rw [countAllowedIn, hl]
    exact pairwise_sep_filter_interval cfg.period a _
      (allowedTimesFromStart_sep cfg hl hp ts hts)
  · intro t₀ calls
    exact runBucket_count_le cfg calls (freshBucket t₀)
      (by simp [freshBucket])

/-- Witness for C2: the meme configuration on the history 0, 2, 5.001,
counting allowed calls in the window starting at 0. -/
theorem rate_limit_bounded_witness :
    (memeCooldownConfig = memeCooldownConfig ∨
      memeCooldownConfig = resCooldownConfig) ∧
    List.Chain' (· ≤ ·) [(0 : ℚ), 2, 5.001] ∧
    countAllowedIn memeCooldownConfig [0, 2, 5.001] 0 ≤
      memeCooldownConfig.limit :=
  ⟨Or.inl rfl,
   by simp [List.chain'_cons]; norm_num,
   (rate_limit_bounded memeCooldownConfig (Or.inl rfl) [0, 2, 5.001]
     (by simp [List.chain'_cons]; norm_num) 0).1⟩

end Bloo
